import Mathlib

set_option maxHeartbeats 1000000
set_option maxRecDepth 100000

/- Shallow embedding of loglib (src/loglib/src/lib.rs): a size-rotating
   log-file writer behind a level filter, with a Logger facade and an
   optional system-log bridge.  The filesystem is modelled explicitly:
   paths bound to inodes (so an open handle survives a rename of its
   path), inode contents as strings (one byte per character), and an
   oracle deciding which primitive I/O operations fail. -/

-- ===== Severity levels (lib.rs 12-32) =====

inductive LogLevel where
  | Trace
  | Debug
  | Info
  | Warning
  | Error
  | Fatal
deriving DecidableEq

/-- The integer discriminant of the `LogLevel` enum (`level as usize`). -/
def LogLevel.rank : LogLevel → Nat
  | .Trace => 0
  | .Debug => 1
  | .Info => 2
  | .Warning => 3
  | .Error => 4
  | .Fatal => 5

/-- `LogLevel::as_str` (lib.rs 23-32). -/
def LogLevel.as_str : LogLevel → String
  | .Trace => "TRACE"
  | .Debug => "DEBUG"
  | .Info => "INFO"
  | .Warning => "WARNING"
  | .Error => "ERROR"
  | .Fatal => "FATAL"

-- ===== Global filter level (lib.rs 57-65) =====

/-- Initial value of `GLOBAL_LOG_LEVEL` (`AtomicUsize::new(1)`, lib.rs 57). -/
def GLOBAL_LOG_LEVEL_default : Nat := 1

/-- `should_log` (lib.rs 63-65): `(level as usize) >= GLOBAL_LOG_LEVEL`.
    The atomic global is passed explicitly as `threshold`. -/
def should_log (threshold : Nat) (level : LogLevel) : Bool :=
  decide (threshold ≤ level.rank)

-- ===== Filesystem model =====

/-- Which primitive filesystem operations fail.  The real operations are
    fallible syscalls; the oracle fixes their outcomes so that runs are
    deterministic and each failure scenario can be examined. -/
structure IOOracle where
  renameFails : String → String → Bool
  removeFails : String → Bool
  openFails : String → Bool
  mkdirFails : String → Bool

/-- The oracle under which every primitive operation succeeds. -/
def cleanOracle : IOOracle :=
  ⟨fun _ _ => false, fun _ => false, fun _ => false, fun _ => false⟩

def lookupName : List (String × Nat) → String → Option Nat
  | [], _ => none
  | (q, h) :: rest, p => if q = p then some h else lookupName rest p

def eraseName : List (String × Nat) → String → List (String × Nat)
  | [], _ => []
  | (q, h) :: rest, p =>
    if q = p then eraseName rest p else (q, h) :: eraseName rest p

def bindName (l : List (String × Nat)) (p : String) (h : Nat) :
    List (String × Nat) :=
  (p, h) :: eraseName l p

def findData : List (Nat × String) → Nat → Option String
  | [], _ => none
  | (k, v) :: rest, n => if k = n then some v else findData rest n

def setData : List (Nat × String) → Nat → String → List (Nat × String)
  | [], k, v => [(k, v)]
  | (q, v') :: rest, k, v =>
    if q = k then (k, v) :: rest else (q, v') :: setData rest k v

/-- A filesystem: created directories, path-to-inode bindings, inode
    contents, and a fresh-inode counter. -/
structure FS where
  dirs : List String
  names : List (String × Nat)
  data : List (Nat × String)
  next : Nat
deriving DecidableEq

def FS.pathExists (fs : FS) (p : String) : Bool :=
  (lookupName fs.names p).isSome

/-- Bytes readable through an open handle (the file's current content). -/
def FS.content (fs : FS) (h : Nat) : String :=
  (findData fs.data h).getD ""

def FS.appendTo (fs : FS) (h : Nat) (s : String) : FS :=
  { fs with data := setData fs.data h (fs.content h ++ s) }

/-- `fs::remove_file`: unlinks the path.  A failing removal leaves the
    filesystem unchanged. -/
def FS.removeFile (o : IOOracle) (fs : FS) (p : String) : FS :=
  if o.removeFails p then fs else { fs with names := eraseName fs.names p }

/-- `fs::rename`: rebinds the destination path to the source's inode and
    unlinks the source.  Fails (filesystem unchanged) if the oracle says
    so or the source does not exist. -/
def FS.rename (o : IOOracle) (fs : FS) (src dst : String) : FS × Bool :=
  if o.renameFails src dst then (fs, false)
  else
    match lookupName fs.names src with
    | none => (fs, false)
    | some h =>
      ({ fs with names := bindName (eraseName fs.names src) dst h }, true)

/-- `OpenOptions::new().create(true).append(true).open(p)`: returns the
    existing inode, or allocates a fresh empty one. -/
def FS.openAppend (o : IOOracle) (fs : FS) (p : String) :
    Except Unit (Nat × FS) :=
  if o.openFails p then .error ()
  else
    match lookupName fs.names p with
    | some h => .ok (h, fs)
    | none =>
      .ok (fs.next,
        { fs with
          names := bindName fs.names p fs.next
          data := (fs.next, "") :: fs.data
          next := fs.next + 1 })

/-- `fs::create_dir_all`. -/
def FS.mkdirAll (o : IOOracle) (fs : FS) (d : String) : Except Unit FS :=
  if o.mkdirFails d then .error () else .ok { fs with dirs := d :: fs.dirs }

-- ===== Line formatting (lib.rs 170-182) =====

/-- The per-call environment of `format_log_line`: the local wall-clock
    instant, the process id and the rendered thread id. -/
structure LineCtx where
  year : Nat
  month : Nat
  day : Nat
  hour : Nat
  minute : Nat
  second : Nat
  millis : Nat
  pid : Nat
  tid : String
deriving DecidableEq

/-- Decimal rendering left-padded with zeros to `width` digits, as
    chrono's padded format specifiers produce. -/
def padNum (width n : Nat) : String :=
  let s := Nat.repr n
  String.mk (List.replicate (width - s.length) '0') ++ s

/-- chrono format string `%Y-%m-%d %H:%M:%S%.3f` (lib.rs 176). -/
def fmtTimestamp (ctx : LineCtx) : String :=
  padNum 4 ctx.year ++ "-" ++ padNum 2 ctx.month ++ "-" ++ padNum 2 ctx.day
    ++ " " ++ padNum 2 ctx.hour ++ ":" ++ padNum 2 ctx.minute ++ ":"
    ++ padNum 2 ctx.second ++ "." ++ padNum 3 ctx.millis

/-- `RotatingWriter::format_log_line` (lib.rs 170-182):
    `format!("[{}] {} PID:{} TID:{} {}", now, level, pid, tid, message)`. -/
def format_log_line (ctx : LineCtx) (level : LogLevel) (message : String) :
    String :=
  "[" ++ fmtTimestamp ctx ++ "] " ++ level.as_str ++ " PID:"
    ++ Nat.repr ctx.pid ++ " TID:" ++ ctx.tid ++ " " ++ message

-- ===== RotatingWriter (lib.rs 77-261) =====

structure RotatingWriter where
  dir : String
  basename : String
  max_size : Nat
  max_files : Nat
  handle : Option Nat
  app_info : String
  has_system_logger : Bool
deriving DecidableEq

/-- `RotatingWriter::MIN_SIZE` (lib.rs 88). -/
def MIN_SIZE : Nat := 256

/-- `self.dir.join(&self.basename)`. -/
def basePath (w : RotatingWriter) : String :=
  w.dir ++ "/" ++ w.basename

/-- `self.dir.join(format!("{}.{}", self.basename, i))`. -/
def archivePath (w : RotatingWriter) (i : Nat) : String :=
  w.dir ++ "/" ++ w.basename ++ "." ++ Nat.repr i

/-- `RotatingWriter::log_to_system` (lib.rs 245-249): delivers the report
    to the bridge only when a system logger is configured. -/
def log_to_system (w : RotatingWriter) (level : LogLevel) (msg : String) :
    List (LogLevel × String) :=
  if w.has_system_logger then [(level, msg)] else []

inductive NewError where
  | configError
  | ioError
deriving DecidableEq

/-- `RotatingWriter::new` (lib.rs 90-121). -/
def RotatingWriter.new (o : IOOracle) (dir basename : String)
    (max_size max_files : Nat) (app_info : String) (has_sys : Bool)
    (fs : FS) : Except NewError RotatingWriter × FS :=
  if max_size < MIN_SIZE then (.error .configError, fs)
  else
    match FS.mkdirAll o fs dir with
    | .error _ => (.error .ioError, fs)
    | .ok fs1 =>
      match FS.openAppend o fs1 (dir ++ "/" ++ basename) with
      | .error _ => (.error .ioError, fs1)
      | .ok (h, fs2) =>
        (.ok { dir := dir, basename := basename, max_size := max_size,
               max_files := max_files, handle := some h,
               app_info := app_info, has_system_logger := has_sys }, fs2)

/-- `RotatingWriter::reopen` (lib.rs 184-198): reopen the base filename,
    reporting a failure to the bridge before propagating it. -/
def reopen (w : RotatingWriter) (o : IOOracle) (fs : FS) :
    Except Unit (Option Nat × FS) × List (LogLevel × String) :=
  match FS.openAppend o fs (basePath w) with
  | .ok (h, fs1) => (.ok (some h, fs1), [])
  | .error _ =>
    (.error (),
     log_to_system w LogLevel.Error "Failed to reopen log file: open error")

/-- `RotatingWriter::reopen_with_header` (lib.rs 200-211): reopen, then
    append the rotation-marker line at Debug severity. -/
def reopen_with_header (w : RotatingWriter) (o : IOOracle) (ctx : LineCtx)
    (fs : FS) :
    Except Unit (Option Nat × FS) × List (LogLevel × String) :=
  let r := reopen w o fs
  match r.1 with
  | .error e => (.error e, r.2)
  | .ok (fh, fs1) =>
    match fh with
    | some h =>
      let header := "[ROTATION] Logger restarted — " ++ w.app_info
      let line := format_log_line ctx LogLevel.Debug header
      (.ok (some h, fs1.appendTo h (line ++ "\n")), r.2)
    | none => (.ok (none, fs1), r.2)

/-- One iteration of the shift loop in `rotate` (lib.rs 221-230): if
    `B.i` exists, delete `B.(i+1)` (failure swallowed) and rename
    `B.i → B.(i+1)`, propagating a rename failure. -/
def shiftOne (w : RotatingWriter) (o : IOOracle) (i : Nat) (fs : FS) :
    FS × Bool :=
  if fs.pathExists (archivePath w i) then
    let fs1 := FS.removeFile o fs (archivePath w (i + 1))
    FS.rename o fs1 (archivePath w i) (archivePath w (i + 1))
  else (fs, true)

/-- The shift loop over a given index sequence, stopping at the first
    failed rename (`return Err(e)` in lib.rs 226-228). -/
def shiftMany (w : RotatingWriter) (o : IOOracle) :
    List Nat → FS → FS × Bool
  | [], fs => (fs, true)
  | i :: rest, fs =>
    let r := shiftOne w o i fs
    if r.2 then shiftMany w o rest r.1 else r

/-- `RotatingWriter::rotate` (lib.rs 213-243).  The `Bool` is `true` for
    `Ok(())`.  The loop `for i in (1..max_files).rev()` visits
    `max_files - 1, …, 1`. -/
def RotatingWriter.rotate (w : RotatingWriter) (o : IOOracle) (fs : FS) :
    FS × Bool :=
  let fs0 := FS.removeFile o fs (archivePath w w.max_files)
  let r := shiftMany w o ((List.range' 1 (w.max_files - 1)).reverse) fs0
  if r.2 then
    if r.1.pathExists (basePath w) then
      FS.rename o (FS.removeFile o r.1 (archivePath w 1))
        (basePath w) (archivePath w 1)
    else (r.1, true)
  else r

structure WriteResult where
  writer : RotatingWriter
  fs : FS
  sysReports : List (LogLevel × String)
deriving DecidableEq

/-- `RotatingWriter::write` (lib.rs 123-168).  The size check seeks to
    end-of-file, so `pos` is the byte length of the handle's content.
    On the rotation path the failure reports are, in order: the rotate
    failure (lib.rs 142), the report issued inside `reopen` (lib.rs
    192-195), and the reopen failure report in `write` itself
    (lib.rs 149); a reopen failure returns early, leaving the stored
    handle untouched. -/
def RotatingWriter.write (w : RotatingWriter) (o : IOOracle) (ctx : LineCtx)
    (threshold : Nat) (level : LogLevel) (message : String) (fs : FS) :
    WriteResult :=
  if should_log threshold level = false then ⟨w, fs, []⟩
  else
    let need_rotate :=
      match w.handle with
      | some h => decide (w.max_size ≤ (fs.content h).length)
      | none => false
    if need_rotate then
      let rot := w.rotate o fs
      let reps1 :=
        if rot.2 then []
        else log_to_system w LogLevel.Error "Failed to rotate log: rename error"
      let ro := reopen_with_header w o ctx rot.1
      match ro.1 with
      | .error _ =>
        ⟨w, rot.1,
         reps1 ++ ro.2
           ++ log_to_system w LogLevel.Error "Failed to reopen log: open error"⟩
      | .ok (fh, fs2) =>
        match fh with
        | some h =>
          ⟨{ w with handle := fh },
           fs2.appendTo h (format_log_line ctx level message ++ "\n"),
           reps1 ++ ro.2⟩
        | none => ⟨{ w with handle := fh }, fs2, reps1 ++ ro.2⟩
    else
      match w.handle with
      | some h =>
        ⟨w, fs.appendTo h (format_log_line ctx level message ++ "\n"), []⟩
      | none => ⟨w, fs, []⟩

-- ===== Logger facade (lib.rs 265-381) =====

structure Logger where
  rotating_writer : Option RotatingWriter
  has_system_logger : Bool
  app_name : String
deriving DecidableEq

/-- Outcome of one Logger call: the updated facade and filesystem, the
    writer's error reports to the bridge, and any log message forwarded
    to the bridge by the facade itself (`platform_log`'s delivery). -/
structure LogResult where
  logger : Logger
  fs : FS
  sysReports : List (LogLevel × String)
  bridged : List (LogLevel × String)
deriving DecidableEq

/-- `Logger::write_to_file` (lib.rs 365-369): delegate to the writer if
    present. -/
def Logger.write_to_file (lg : Logger) (o : IOOracle) (ctx : LineCtx)
    (threshold : Nat) (level : LogLevel) (message : String) (fs : FS) :
    LogResult :=
  match lg.rotating_writer with
  | some w =>
    let r := w.write o ctx threshold level message fs
    ⟨{ lg with rotating_writer := some r.writer }, r.fs, r.sysReports, []⟩
  | none => ⟨lg, fs, [], []⟩

/-- `Logger::log` (lib.rs 346-352): no-op without a writer, otherwise
    format the arguments (already a rendered string here) and call
    `write_to_file` at Debug severity. -/
def Logger.log (lg : Logger) (o : IOOracle) (ctx : LineCtx)
    (threshold : Nat) (message : String) (fs : FS) : LogResult :=
  if lg.rotating_writer.isNone then ⟨lg, fs, [], []⟩
  else lg.write_to_file o ctx threshold LogLevel.Debug message fs

/-- `Logger::platform_log` (lib.rs 354-363): the messages delivered to
    the bridge by one call. -/
def Logger.platform_log (lg : Logger) (threshold : Nat) (level : LogLevel)
    (message : String) : List (LogLevel × String) :=
  if lg.has_system_logger = false then []
  else if should_log threshold level then [(level, message)] else []

-- ===== Spec-side rotation cascade (spec.md §4.2.1) =====

/-- Transcription of one spec shift step: "if B.i exists, delete B.(i+1)
    if present, then rename B.i → B.(i+1)". -/
def specCascadeStep (w : RotatingWriter) (o : IOOracle) (i : Nat) (fs : FS) :
    FS × Bool :=
  if fs.pathExists (archivePath w i) then
    FS.rename o (FS.removeFile o fs (archivePath w (i + 1)))
      (archivePath w i) (archivePath w (i + 1))
  else (fs, true)

/-- Transcription of the spec loop "for i from N-1 down to 1", stopping
    immediately when a rename fails; `specCascadeShift w o n` processes
    indices `n, n-1, …, 1`. -/
def specCascadeShift (w : RotatingWriter) (o : IOOracle) :
    Nat → FS → FS × Bool
  | 0, fs => (fs, true)
  | Nat.succ i, fs =>
    let r := specCascadeStep w o (i + 1) fs
    if r.2 then specCascadeShift w o i r.1 else r

/-- Transcription of spec.md §4.2.1: delete `B.N` if present, shift
    `N-1 … 1`, rename the current `B → B.1`, stopping immediately if any
    rename fails. -/
def rotateSpec (w : RotatingWriter) (o : IOOracle) (fs : FS) : FS × Bool :=
  let fs0 :=
    if fs.pathExists (archivePath w w.max_files) then
      FS.removeFile o fs (archivePath w w.max_files)
    else fs
  let r := specCascadeShift w o (w.max_files - 1) fs0
  if r.2 then
    if r.1.pathExists (basePath w) then
      FS.rename o (FS.removeFile o r.1 (archivePath w 1))
        (basePath w) (archivePath w 1)
    else (r.1, true)
  else r

-- ===== Interleaving model of concurrent writes (lib.rs 123-168) =====

/- Two threads each execute one `RotatingWriter::write` call against the
   shared writer state.  A maximal region executed while holding the
   `self.file` mutex is one atomic step; `rotate` runs between the two
   lock regions with the lock released (`drop(file_lock)`, lib.rs 139),
   so it is a step of its own, taken with no lock requirement. -/

inductive CPC where
  | entry
  | locked1
  | rotating
  | relock
  | locked2
  | done
deriving DecidableEq

structure CThread where
  pc : CPC
  level : LogLevel
  message : String
deriving DecidableEq

structure CConfig where
  w : RotatingWriter
  lockOwner : Option Bool
  fs : FS
  thA : CThread
  thB : CThread
deriving DecidableEq

def getTh (c : CConfig) (t : Bool) : CThread :=
  if t then c.thB else c.thA

def setTh (c : CConfig) (t : Bool) (th : CThread) : CConfig :=
  if t then { c with thB := th } else { c with thA := th }

/-- One atomic step of thread `t` inside `write`; `none` when the step
    is not enabled (the lock is unavailable, or the thread is done). -/
def threadStep (o : IOOracle) (ctx : LineCtx) (threshold : Nat)
    (c : CConfig) (t : Bool) : Option CConfig :=
  let ts := getTh c t
  match ts.pc with
  | .entry =>
    if should_log threshold ts.level = false then
      some (setTh c t { ts with pc := .done })
    else if c.lockOwner = none then
      some (setTh { c with lockOwner := some t } t { ts with pc := .locked1 })
    else none
  | .locked1 =>
    if c.lockOwner = some t then
      let need :=
        match c.w.handle with
        | some h => decide (c.w.max_size ≤ (c.fs.content h).length)
        | none => false
      if need then
        some (setTh { c with lockOwner := none } t { ts with pc := .rotating })
      else
        let fs1 :=
          match c.w.handle with
          | some h =>
            c.fs.appendTo h (format_log_line ctx ts.level ts.message ++ "\n")
          | none => c.fs
        some (setTh { c with lockOwner := none, fs := fs1 } t
          { ts with pc := .done })
    else none
  | .rotating =>
    some (setTh { c with fs := (c.w.rotate o c.fs).1 } t
      { ts with pc := .relock })
  | .relock =>
    if c.lockOwner = none then
      some (setTh { c with lockOwner := some t } t { ts with pc := .locked2 })
    else none
  | .locked2 =>
    if c.lockOwner = some t then
      match reopen_with_header c.w o ctx c.fs with
      | (.ok (fh, fs1), _) =>
        let fs2 :=
          match fh with
          | some h =>
            fs1.appendTo h (format_log_line ctx ts.level ts.message ++ "\n")
          | none => fs1
        some (setTh
          { c with w := { c.w with handle := fh }, fs := fs2,
                   lockOwner := none }
          t { ts with pc := .done })
      | (.error _, _) =>
        some (setTh { c with lockOwner := none } t { ts with pc := .done })
    else none
  | .done => none

/-- Run a schedule; the result is `some` exactly when every scheduled
    step was enabled, so a returned run is a legal interleaving. -/
def runTrace (o : IOOracle) (ctx : LineCtx) (threshold : Nat) :
    List Bool → CConfig → Option CConfig
  | [], c => some c
  | t :: rest, c =>
    match threadStep o ctx threshold c t with
    | some c1 => runTrace o ctx threshold rest c1
    | none => none

-- ===== Concrete configurations used by witnesses =====

def ctx0 : LineCtx :=
  { year := 2026, month := 10, day := 12, hour := 9, minute := 5,
    second := 7, millis := 42, pid := 1234, tid := "ThreadId(1)" }

def wC1 : RotatingWriter :=
  { dir := "logs", basename := "app.log", max_size := 256, max_files := 3,
    handle := some 0, app_info := "demo v1", has_system_logger := false }

/-- 256 bytes of payload, exactly the rotation threshold of `wC1`. -/
def bigContent : String := String.mk (List.replicate 256 'a')

def fsC1 : FS :=
  { dirs := ["logs"], names := [("logs/app.log", 0)],
    data := [(0, bigContent)], next := 1 }

/-- Like `wC1` but wired to a system-log bridge. -/
def wSys : RotatingWriter := { wC1 with has_system_logger := true }

/-- Oracle under which every rename fails. -/
def renameFailOracle : IOOracle :=
  ⟨fun _ _ => true, fun _ => false, fun _ => false, fun _ => false⟩

/-- Oracle under which every delete fails but nothing else does. -/
def removeFailOracle : IOOracle :=
  ⟨fun _ _ => false, fun _ => true, fun _ => false, fun _ => false⟩

/-- Oracle under which every open fails but nothing else does. -/
def openFailOracle : IOOracle :=
  ⟨fun _ _ => false, fun _ => false, fun _ => true, fun _ => false⟩

def w6 : RotatingWriter :=
  { dir := "d", basename := "b", max_size := 256, max_files := 2,
    handle := some 7, app_info := "x", has_system_logger := true }

def fs6 : FS :=
  { dirs := ["d"], names := [("d/b.2", 5), ("d/b.1", 6), ("d/b", 7)],
    data := [(5, "old2"), (6, "old1"), (7, bigContent)], next := 8 }

/-- `wC1`'s filesystem just after construction: base file empty. -/
def fsFresh : FS :=
  { dirs := ["logs"], names := [("logs/app.log", 0)],
    data := [(0, "")], next := 1 }

def lgBoth : Logger :=
  { rotating_writer := some wSys, has_system_logger := true,
    app_name := "demo" }

def lgNone : Logger :=
  { rotating_writer := none, has_system_logger := true, app_name := "demo" }

/-- Both threads start one `write` call at Info severity. -/
def c3init : CConfig :=
  { w := wC1, lockOwner := none, fs := fsC1,
    thA := { pc := .entry, level := LogLevel.Info, message := "msgA" },
    thB := { pc := .entry, level := LogLevel.Info, message := "msgB" } }

/-- Legal schedule in which both threads pass the size check before
    either runs the cascade (A = `false`, B = `true`). -/
def c3interleaved : List Bool :=
  [false, false, true, true, false, true, false, false, true, true]

def c3serialAB : List Bool := [false, false, false, false, false, true, true]

def c3serialBA : List Bool := [true, true, true, true, true, false, false]

-- ===== Association-list lemmas =====

theorem lookupName_eraseName (l : List (String × Nat)) (p q : String) :
    lookupName (eraseName l p) q = if q = p then none else lookupName l q := by
  induction l with
  | nil => simp [eraseName, lookupName]
  | cons kv rest ih =>
    obtain ⟨k, h⟩ := kv
    by_cases hk : k = p
    · subst hk
      rw [eraseName, if_pos rfl, ih, lookupName]
      by_cases hq : q = k
      · simp [hq]
      · rw [if_neg hq, if_neg hq, if_neg (Ne.symm hq)]
    · rw [eraseName, if_neg hk, lookupName, lookupName]
      by_cases hkq : k = q
      · subst hkq
        rw [if_pos rfl, if_pos rfl, if_neg (fun hqp : k = p => hk hqp)]
      · rw [if_neg hkq, if_neg hkq, ih]

theorem lookupName_bindName (l : List (String × Nat)) (p : String) (h : Nat)
    (q : String) :
    lookupName (bindName l p h) q =
      if p = q then some h else lookupName l q := by
  rw [bindName, lookupName, lookupName_eraseName]
  by_cases hpq : p = q
  · rw [if_pos hpq, if_pos hpq]
  · rw [if_neg hpq, if_neg hpq, if_neg (Ne.symm hpq)]

theorem eraseName_of_lookup_none (l : List (String × Nat)) (p : String)
    (hnone : lookupName l p = none) : eraseName l p = l := by
  induction l with
  | nil => rfl
  | cons kv rest ih =>
    obtain ⟨k, h⟩ := kv
    rw [lookupName] at hnone
    by_cases hk : k = p
    · simp [hk] at hnone
    · rw [eraseName, if_neg hk, ih (by simpa [hk] using hnone)]

theorem findData_setData_self (l : List (Nat × String)) (k : Nat)
    (v : String) : findData (setData l k v) k = some v := by
  induction l with
  | nil => simp [setData, findData]
  | cons kv rest ih =>
    obtain ⟨q, v'⟩ := kv
    by_cases hq : q = k
    · simp [setData, hq, findData]
    · rw [setData, if_neg hq, findData, if_neg hq, ih]

theorem findData_setData_ne (l : List (Nat × String)) (k : Nat) (v : String)
    (n : Nat) (hne : n ≠ k) : findData (setData l k v) n = findData l n := by
  induction l with
  | nil =>
    simp only [setData, findData]
    rw [if_neg (Ne.symm hne)]
  | cons kv rest ih =>
    obtain ⟨q, v'⟩ := kv
    by_cases hq : q = k
    · subst hq
      rw [setData, if_pos rfl, findData, if_neg (Ne.symm hne), findData,
        if_neg (Ne.symm hne)]
    · rw [setData, if_neg hq, findData, findData]
      by_cases hqn : q = n
      · rw [if_pos hqn, if_pos hqn]
      · rw [if_neg hqn, if_neg hqn, ih]

-- ===== Filesystem-operation lemmas =====

@[simp] theorem cleanOracle_renameFails (s d : String) :
    cleanOracle.renameFails s d = false := rfl

@[simp] theorem cleanOracle_removeFails (p : String) :
    cleanOracle.removeFails p = false := rfl

@[simp] theorem cleanOracle_openFails (p : String) :
    cleanOracle.openFails p = false := rfl

@[simp] theorem cleanOracle_mkdirFails (d : String) :
    cleanOracle.mkdirFails d = false := rfl

@[simp] theorem appendTo_names (fs : FS) (h : Nat) (s : String) :
    (fs.appendTo h s).names = fs.names := rfl

@[simp] theorem appendTo_next (fs : FS) (h : Nat) (s : String) :
    (fs.appendTo h s).next = fs.next := rfl

@[simp] theorem appendTo_dirs (fs : FS) (h : Nat) (s : String) :
    (fs.appendTo h s).dirs = fs.dirs := rfl

theorem content_appendTo_self (fs : FS) (h : Nat) (s : String) :
    (fs.appendTo h s).content h = fs.content h ++ s := by
  simp [FS.appendTo, FS.content, findData_setData_self]

theorem content_appendTo_ne (fs : FS) (h : Nat) (s : String) (n : Nat)
    (hne : n ≠ h) : (fs.appendTo h s).content n = fs.content n := by
  simp [FS.appendTo, FS.content, findData_setData_ne _ _ _ _ hne]

@[simp] theorem removeFile_data (o : IOOracle) (fs : FS) (p : String) :
    (FS.removeFile o fs p).data = fs.data := by
  rw [FS.removeFile]; split <;> rfl

@[simp] theorem removeFile_next (o : IOOracle) (fs : FS) (p : String) :
    (FS.removeFile o fs p).next = fs.next := by
  rw [FS.removeFile]; split <;> rfl

theorem lookupName_removeFile_ne (o : IOOracle) (fs : FS) (p q : String)
    (hne : q ≠ p) :
    lookupName (FS.removeFile o fs p).names q = lookupName fs.names q := by
  rw [FS.removeFile]
  split
  · rfl
  · simp [lookupName_eraseName, hne]

@[simp] theorem rename_data (o : IOOracle) (fs : FS) (src dst : String) :
    (FS.rename o fs src dst).1.data = fs.data := by
  rw [FS.rename]
  split
  · rfl
  · split <;> rfl

@[simp] theorem rename_next (o : IOOracle) (fs : FS) (src dst : String) :
    (FS.rename o fs src dst).1.next = fs.next := by
  rw [FS.rename]
  split
  · rfl
  · split <;> rfl

theorem lookupName_rename_ne (o : IOOracle) (fs : FS) (src dst q : String)
    (hs : q ≠ src) (hd : q ≠ dst) :
    lookupName (FS.rename o fs src dst).1.names q = lookupName fs.names q := by
  rw [FS.rename]
  split
  · rfl
  · split
    · rfl
    · rw [lookupName_bindName, if_neg (Ne.symm hd), lookupName_eraseName,
        if_neg hs]

theorem rename_success_of_no_fail (o : IOOracle) (fs : FS)
    (src dst : String) (h : Nat)
    (hnf : o.renameFails src dst = false)
    (hsrc : lookupName fs.names src = some h) :
    FS.rename o fs src dst =
      ({ fs with names := bindName (eraseName fs.names src) dst h }, true) := by
  rw [FS.rename, hnf]
  simp [hsrc]

theorem rename_clean_success (fs : FS) (src dst : String) (h : Nat)
    (hsrc : lookupName fs.names src = some h) :
    FS.rename cleanOracle fs src dst =
      ({ fs with names := bindName (eraseName fs.names src) dst h }, true) :=
  rename_success_of_no_fail cleanOracle fs src dst h rfl hsrc

theorem removeFile_of_lookup_none (o : IOOracle) (fs : FS) (p : String)
    (h : lookupName fs.names p = none) : FS.removeFile o fs p = fs := by
  rw [FS.removeFile]
  split
  · rfl
  · rw [eraseName_of_lookup_none _ _ h]

-- ===== Shift-loop and rotation lemmas =====

@[simp] theorem shiftOne_data (w : RotatingWriter) (o : IOOracle) (i : Nat)
    (fs : FS) : (shiftOne w o i fs).1.data = fs.data := by
  rw [shiftOne]
  split
  · rw [rename_data, removeFile_data]
  · rfl

@[simp] theorem shiftOne_next (w : RotatingWriter) (o : IOOracle) (i : Nat)
    (fs : FS) : (shiftOne w o i fs).1.next = fs.next := by
  rw [shiftOne]
  split
  · rw [rename_next, removeFile_next]
  · rfl

theorem shiftMany_data (w : RotatingWriter) (o : IOOracle) (l : List Nat) :
    ∀ fs : FS, (shiftMany w o l fs).1.data = fs.data := by
  induction l with
  | nil => intro fs; rfl
  | cons i rest ih =>
    intro fs
    simp only [shiftMany]
    split
    · rw [ih, shiftOne_data]
    · rw [shiftOne_data]

theorem shiftMany_next (w : RotatingWriter) (o : IOOracle) (l : List Nat) :
    ∀ fs : FS, (shiftMany w o l fs).1.next = fs.next := by
  induction l with
  | nil => intro fs; rfl
  | cons i rest ih =>
    intro fs
    simp only [shiftMany]
    split
    · rw [ih, shiftOne_next]
    · rw [shiftOne_next]

theorem lookupName_shiftOne_ne (w : RotatingWriter) (o : IOOracle) (i : Nat)
    (fs : FS) (q : String) (h1 : q ≠ archivePath w i)
    (h2 : q ≠ archivePath w (i + 1)) :
    lookupName (shiftOne w o i fs).1.names q = lookupName fs.names q := by
  rw [shiftOne]
  split
  · rw [lookupName_rename_ne _ _ _ _ _ h1 h2,
      lookupName_removeFile_ne _ _ _ _ h2]
  · rfl

theorem lookupName_shiftMany_ne (w : RotatingWriter) (o : IOOracle)
    (q : String) (l : List Nat) :
    ∀ fs : FS,
      (∀ i ∈ l, q ≠ archivePath w i ∧ q ≠ archivePath w (i + 1)) →
      lookupName (shiftMany w o l fs).1.names q = lookupName fs.names q := by
  induction l with
  | nil => intro fs _; rfl
  | cons i rest ih =>
    intro fs hl
    obtain ⟨h1, h2⟩ := hl i (List.mem_cons_self i rest)
    have hrest : ∀ j ∈ rest, q ≠ archivePath w j ∧ q ≠ archivePath w (j + 1) :=
      fun j hj => hl j (List.mem_cons_of_mem i hj)
    simp only [shiftMany]
    split
    · rw [ih _ hrest, lookupName_shiftOne_ne w o i fs q h1 h2]
    · rw [lookupName_shiftOne_ne w o i fs q h1 h2]

theorem shiftOne_clean_ok (w : RotatingWriter) (i : Nat) (fs : FS)
    (hne : archivePath w i ≠ archivePath w (i + 1)) :
    (shiftOne w cleanOracle i fs).2 = true := by
  rw [shiftOne]
  split
  · rename_i hex
    rw [FS.pathExists] at hex
    obtain ⟨h, hh⟩ := Option.isSome_iff_exists.mp hex
    have hlook : lookupName
        (FS.removeFile cleanOracle fs (archivePath w (i + 1))).names
        (archivePath w i) = some h := by
      rw [lookupName_removeFile_ne _ _ _ _ hne, hh]
    rw [rename_clean_success _ _ _ _ hlook]
  · rfl

theorem shiftMany_clean_ok (w : RotatingWriter) (l : List Nat)
    (hl : ∀ i ∈ l, archivePath w i ≠ archivePath w (i + 1)) :
    ∀ fs : FS, (shiftMany w cleanOracle l fs).2 = true := by
  induction l with
  | nil => intro fs; rfl
  | cons i rest ih =>
    intro fs
    simp only [shiftMany]
    split
    · exact ih (fun j hj => hl j (List.mem_cons_of_mem i hj)) _
    · rename_i hfail
      exact absurd (shiftOne_clean_ok w i fs (hl i (List.mem_cons_self i rest)))
        hfail

theorem shiftOne_norename_ok (w : RotatingWriter) (o : IOOracle) (i : Nat)
    (fs : FS) (hno : ∀ s d, o.renameFails s d = false)
    (hne : archivePath w i ≠ archivePath w (i + 1)) :
    (shiftOne w o i fs).2 = true := by
  rw [shiftOne]
  split
  · rename_i hex
    rw [FS.pathExists] at hex
    obtain ⟨h, hh⟩ := Option.isSome_iff_exists.mp hex
    have hlook : lookupName
        (FS.removeFile o fs (archivePath w (i + 1))).names
        (archivePath w i) = some h := by
      rw [lookupName_removeFile_ne _ _ _ _ hne, hh]
    rw [rename_success_of_no_fail _ _ _ _ _ (hno _ _) hlook]
  · rfl

theorem shiftMany_norename_ok (w : RotatingWriter) (o : IOOracle)
    (hno : ∀ s d, o.renameFails s d = false) (l : List Nat)
    (hl : ∀ i ∈ l, archivePath w i ≠ archivePath w (i + 1)) :
    ∀ fs : FS, (shiftMany w o l fs).2 = true := by
  induction l with
  | nil => intro fs; rfl
  | cons i rest ih =>
    intro fs
    simp only [shiftMany]
    split
    · exact ih (fun j hj => hl j (List.mem_cons_of_mem i hj)) _
    · rename_i hfail
      exact absurd
        (shiftOne_norename_ok w o i fs hno (hl i (List.mem_cons_self i rest)))
        hfail

/-- Delete failures never make the cascade fail: if no rename fails,
    `rotate` reports success whatever the delete oracle does. -/
theorem rotate_norename_ok (w : RotatingWriter) (o : IOOracle) (fs : FS)
    (hno : ∀ s d, o.renameFails s d = false)
    (hdist : ∀ i ∈ List.range (w.max_files + 2),
      archivePath w i ≠ archivePath w (i + 1))
    (hb1 : basePath w ≠ archivePath w 1) :
    (w.rotate o fs).2 = true := by
  have hok : (shiftMany w o ((List.range' 1 (w.max_files - 1)).reverse)
      (FS.removeFile o fs (archivePath w w.max_files))).2 = true := by
    apply shiftMany_norename_ok w o hno
    intro i hi
    rw [List.mem_reverse, List.mem_range'_1] at hi
    exact hdist i (List.mem_range.mpr (by omega))
  simp only [RotatingWriter.rotate]
  rw [if_pos hok]
  split
  · rename_i hex
    rw [FS.pathExists] at hex
    obtain ⟨h, hh⟩ := Option.isSome_iff_exists.mp hex
    have hlook : lookupName
        (FS.removeFile o
          (shiftMany w o ((List.range' 1 (w.max_files - 1)).reverse)
            (FS.removeFile o fs (archivePath w w.max_files))).1
          (archivePath w 1)).names (basePath w) = some h := by
      rw [lookupName_removeFile_ne _ _ _ _ hb1, hh]
    rw [rename_success_of_no_fail _ _ _ _ _ (hno _ _) hlook]
  · rfl

@[simp] theorem rotate_data (w : RotatingWriter) (o : IOOracle) (fs : FS) :
    (w.rotate o fs).1.data = fs.data := by
  simp only [RotatingWriter.rotate]
  split
  · split
    · rw [rename_data, removeFile_data, shiftMany_data, removeFile_data]
    · rw [shiftMany_data, removeFile_data]
  · rw [shiftMany_data, removeFile_data]

@[simp] theorem rotate_next (w : RotatingWriter) (o : IOOracle) (fs : FS) :
    (w.rotate o fs).1.next = fs.next := by
  simp only [RotatingWriter.rotate]
  split
  · split
    · rw [rename_next, removeFile_next, shiftMany_next, removeFile_next]
    · rw [shiftMany_next, removeFile_next]
  · rw [shiftMany_next, removeFile_next]

/-- Under the all-succeed oracle, a rotation triggered while the base
    path is bound to inode `h` moves that binding to archive index 1,
    unbinds the base path, and reports success.  The path-distinctness
    side conditions hold for every actual path set (archive paths carry
    a dot-and-index suffix) and are decidable. -/
theorem rotate_clean (w : RotatingWriter) (fs : FS) (h : Nat)
    (hbase : lookupName fs.names (basePath w) = some h)
    (hbe : ∀ i ∈ List.range (w.max_files + 2), basePath w ≠ archivePath w i)
    (hane : ∀ i ∈ List.range (w.max_files + 2),
      archivePath w i ≠ archivePath w (i + 1)) :
    (w.rotate cleanOracle fs).2 = true ∧
    lookupName (w.rotate cleanOracle fs).1.names (archivePath w 1) = some h ∧
    lookupName (w.rotate cleanOracle fs).1.names (basePath w) = none := by
  have hN : w.max_files < w.max_files + 2 := by omega
  have hmem : ∀ i ∈ (List.range' 1 (w.max_files - 1)).reverse,
      1 ≤ i ∧ i < w.max_files := by
    intro i hi
    rw [List.mem_reverse, List.mem_range'_1] at hi
    omega
  have hbase0 : lookupName
      (FS.removeFile cleanOracle fs (archivePath w w.max_files)).names
      (basePath w) = some h := by
    rw [lookupName_removeFile_ne _ _ _ _
      (hbe w.max_files (List.mem_range.mpr hN)), hbase]
  have hbase1 : lookupName
      (shiftMany w cleanOracle ((List.range' 1 (w.max_files - 1)).reverse)
        (FS.removeFile cleanOracle fs (archivePath w w.max_files))).1.names
      (basePath w) = some h := by
    rw [lookupName_shiftMany_ne, hbase0]
    intro i hi
    obtain ⟨hi1, hi2⟩ := hmem i hi
    exact ⟨hbe i (List.mem_range.mpr (by omega)),
      hbe (i + 1) (List.mem_range.mpr (by omega))⟩
  have hok : (shiftMany w cleanOracle ((List.range' 1 (w.max_files - 1)).reverse)
      (FS.removeFile cleanOracle fs (archivePath w w.max_files))).2 = true := by
    apply shiftMany_clean_ok
    intro i hi
    obtain ⟨hi1, hi2⟩ := hmem i hi
    exact hane i (List.mem_range.mpr (by omega))
  have hb1 : basePath w ≠ archivePath w 1 :=
    hbe 1 (List.mem_range.mpr (by omega))
  simp only [RotatingWriter.rotate]
  rw [if_pos hok, if_pos (by rw [FS.pathExists, hbase1]; rfl)]
  have hbase2 : lookupName
      (FS.removeFile cleanOracle
        (shiftMany w cleanOracle ((List.range' 1 (w.max_files - 1)).reverse)
          (FS.removeFile cleanOracle fs (archivePath w w.max_files))).1
        (archivePath w 1)).names (basePath w) = some h := by
    rw [lookupName_removeFile_ne _ _ _ _ hb1, hbase1]
  rw [rename_clean_success _ _ _ _ hbase2]
  refine ⟨rfl, ?_, ?_⟩
  · rw [lookupName_bindName, if_pos rfl]
  · rw [lookupName_bindName, if_neg (Ne.symm hb1), lookupName_eraseName,
      if_pos rfl]

theorem specCascadeStep_eq_shiftOne (w : RotatingWriter) (o : IOOracle)
    (i : Nat) (fs : FS) : specCascadeStep w o i fs = shiftOne w o i fs := rfl

/-- The source loop `for i in (1..max_files).rev()` is exactly the spec's
    downward recursion "for i from N-1 down to 1". -/
theorem shiftMany_range'_eq_specCascadeShift (w : RotatingWriter)
    (o : IOOracle) (n : Nat) :
    ∀ fs : FS,
      shiftMany w o ((List.range' 1 n).reverse) fs
        = specCascadeShift w o n fs := by
  induction n with
  | zero => intro fs; rfl
  | succ m ih =>
    intro fs
    rw [List.range'_1_concat, List.reverse_append, List.reverse_singleton,
      List.singleton_append]
    simp only [shiftMany, specCascadeShift, specCascadeStep_eq_shiftOne,
      Nat.add_comm 1 m]
    split
    · exact ih _
    · rfl

theorem rotate_eq_rotateSpec (w : RotatingWriter) (o : IOOracle) (fs : FS) :
    w.rotate o fs = rotateSpec w o fs := by
  simp only [RotatingWriter.rotate, rotateSpec]
  have hfs0 : (if fs.pathExists (archivePath w w.max_files) = true
      then FS.removeFile o fs (archivePath w w.max_files) else fs)
      = FS.removeFile o fs (archivePath w w.max_files) := by
    split
    · rfl
    · rename_i hne
      cases hl : lookupName fs.names (archivePath w w.max_files) with
      | none => exact (removeFile_of_lookup_none o fs _ hl).symm
      | some v => exact absurd (by rw [FS.pathExists, hl]; rfl) hne
  rw [hfs0, shiftMany_range'_eq_specCascadeShift]

/-- Once a shift step fails, the remaining steps of the schedule are
    abandoned: running the loop over any extension of the failed prefix
    changes nothing. -/
theorem shiftMany_append_abandon (w : RotatingWriter) (o : IOOracle)
    (l1 : List Nat) :
    ∀ (l2 : List Nat) (fs : FS), (shiftMany w o l1 fs).2 = false →
      shiftMany w o (l1 ++ l2) fs = shiftMany w o l1 fs := by
  induction l1 with
  | nil => intro l2 fs hfail; cases hfail
  | cons i rest ih =>
    intro l2 fs hfail
    simp only [shiftMany, List.cons_append]
    simp only [shiftMany] at hfail
    by_cases hc : (shiftOne w o i fs).2 = true
    · rw [if_pos hc, if_pos hc]
      rw [if_pos hc] at hfail
      exact ih l2 _ hfail
    · rw [if_neg hc, if_neg hc]

/-- The rotation path of `write` under the all-succeed oracle: the prior
    inode moves to archive index 1 with its content intact, the base
    path is reopened as a fresh inode holding exactly the Debug
    rotation-marker line followed by the triggering message's line, the
    stored handle is replaced, and no error is reported. -/
theorem write_rotation_outcome (w : RotatingWriter) (ctx : LineCtx)
    (threshold : Nat) (level : LogLevel) (message : String) (fs : FS)
    (h : Nat)
    (hlog : should_log threshold level = true)
    (hh : w.handle = some h)
    (hbase : lookupName fs.names (basePath w) = some h)
    (hsize : w.max_size ≤ (fs.content h).length)
    (hlt : h < fs.next)
    (hbe : ∀ i ∈ List.range (w.max_files + 2), basePath w ≠ archivePath w i)
    (hane : ∀ i ∈ List.range (w.max_files + 2),
      archivePath w i ≠ archivePath w (i + 1)) :
    (w.write cleanOracle ctx threshold level message fs).writer
        = { w with handle := some fs.next } ∧
    lookupName (w.write cleanOracle ctx threshold level message fs).fs.names
        (basePath w) = some fs.next ∧
    lookupName (w.write cleanOracle ctx threshold level message fs).fs.names
        (archivePath w 1) = some h ∧
    (w.write cleanOracle ctx threshold level message fs).fs.content h
        = fs.content h ∧
    (w.write cleanOracle ctx threshold level message fs).fs.content fs.next
        = format_log_line ctx LogLevel.Debug
            ("[ROTATION] Logger restarted — " ++ w.app_info) ++ "\n"
          ++ format_log_line ctx level message ++ "\n" ∧
    (w.write cleanOracle ctx threshold level message fs).sysReports = [] := by
  obtain ⟨hok, harch, hnone⟩ := rotate_clean w fs h hbase hbe hane
  have hnr : (w.rotate cleanOracle fs).1.next = fs.next := rotate_next w _ fs
  have hcond : ¬(should_log threshold level = false) := by
    rw [hlog]; exact fun hc => Bool.false_ne_true hc.symm
  simp only [RotatingWriter.write, if_neg hcond, hh, decide_eq_true hsize,
    if_true]
  rw [hok]
  simp only [if_true, reopen_with_header, reopen, FS.openAppend,
    cleanOracle_openFails, Bool.false_eq_true, if_false, hnone]
  have hne : h ≠ (w.rotate cleanOracle fs).1.next := by
    rw [hnr]; exact Nat.ne_of_lt hlt
  refine ⟨?_, ?_, ?_, ?_, ?_, ?_⟩
  · rw [hnr]
  · simp only [appendTo_names]
    rw [lookupName_bindName, if_pos rfl, hnr]
  · simp only [appendTo_names]
    rw [lookupName_bindName,
      if_neg (hbe 1 (List.mem_range.mpr (by omega))), harch]
  · rw [content_appendTo_ne _ _ _ _ hne, content_appendTo_ne _ _ _ _ hne]
    simp only [FS.content, findData, if_neg (Ne.symm hne), rotate_data]
  · rw [← hnr, content_appendTo_self, content_appendTo_self]
    have hfresh : FS.content
        { dirs := (w.rotate cleanOracle fs).1.dirs,
          names := bindName (w.rotate cleanOracle fs).1.names (basePath w)
            (w.rotate cleanOracle fs).1.next,
          data := ((w.rotate cleanOracle fs).1.next, "")
            :: (w.rotate cleanOracle fs).1.data,
          next := (w.rotate cleanOracle fs).1.next + 1 }
        (w.rotate cleanOracle fs).1.next = "" := by
      simp [FS.content, findData]
    rw [hfresh, String.empty_append,
      String.append_assoc _ (format_log_line ctx level message) "\n"]
  · rfl

-- ===== Claim theorems =====

/-- C1: for every write that passes the level filter and finds the file
    size at or above max_size (all primitive operations succeeding), the
    writer performs the rotation cascade — the prior inode ends up bound
    to basename.1 with its content intact — reopens the base filename
    fresh, appends one Debug rotation-marker line reading "[ROTATION]
    Logger restarted — <app_info>", and then appends the triggering
    message, so the fresh file holds exactly those two lines. -/
theorem c1_rotation_write (w : RotatingWriter) (ctx : LineCtx)
    (threshold : Nat) (level : LogLevel) (message : String) (fs : FS)
    (h : Nat)
    (hlog : should_log threshold level = true)
    (hh : w.handle = some h)
    (hbase : lookupName fs.names (basePath w) = some h)
    (hsize : w.max_size ≤ (fs.content h).length)
    (hlt : h < fs.next)
    (hbe : ∀ i ∈ List.range (w.max_files + 2), basePath w ≠ archivePath w i)
    (hane : ∀ i ∈ List.range (w.max_files + 2),
      archivePath w i ≠ archivePath w (i + 1)) :
    lookupName (w.write cleanOracle ctx threshold level message fs).fs.names
        (archivePath w 1) = some h ∧
    (w.write cleanOracle ctx threshold level message fs).fs.content h
        = fs.content h ∧
    (w.write cleanOracle ctx threshold level message fs).writer.handle
        = some fs.next ∧
    lookupName (w.write cleanOracle ctx threshold level message fs).fs.names
        (basePath w) = some fs.next ∧
    (w.write cleanOracle ctx threshold level message fs).fs.content fs.next
        = format_log_line ctx LogLevel.Debug
            ("[ROTATION] Logger restarted — " ++ w.app_info) ++ "\n"
          ++ format_log_line ctx level message ++ "\n" := by
  obtain ⟨h1, h2, h3, h4, h5, h6⟩ :=
    write_rotation_outcome w ctx threshold level message fs h hlog hh hbase
      hsize hlt hbe hane
  exact ⟨h3, h4, by rw [h1], h2, h5⟩

/-- C1 witness: the concrete writer `wC1` at its 256-byte threshold. -/
theorem c1_rotation_write_witness :
    lookupName
      (RotatingWriter.write wC1 cleanOracle ctx0 1 LogLevel.Info "hello"
        fsC1).fs.names (archivePath wC1 1) = some 0 ∧
    (RotatingWriter.write wC1 cleanOracle ctx0 1 LogLevel.Info "hello"
        fsC1).fs.content 1
      = format_log_line ctx0 LogLevel.Debug
          ("[ROTATION] Logger restarted — " ++ wC1.app_info) ++ "\n"
        ++ format_log_line ctx0 LogLevel.Info "hello" ++ "\n" := by
  have hc := c1_rotation_write wC1 ctx0 1 LogLevel.Info "hello" fsC1 0
    (by decide) rfl rfl (by decide) (by decide) (by decide) (by decide)
  exact ⟨hc.1, hc.2.2.2.2⟩

/-- C4: `should_log level` is true iff `rank level ≥ threshold`, the
    default threshold is the Debug rank, and a write whose level fails
    the filter changes nothing and reports nothing. -/
theorem c4_level_filter (threshold : Nat) (level : LogLevel)
    (w : RotatingWriter) (o : IOOracle) (ctx : LineCtx) (message : String)
    (fs : FS) :
    (should_log threshold level = true ↔ LogLevel.rank level ≥ threshold) ∧
    GLOBAL_LOG_LEVEL_default = LogLevel.rank LogLevel.Debug ∧
    (should_log threshold level = false →
      w.write o ctx threshold level message fs = ⟨w, fs, []⟩) := by
  refine ⟨?_, rfl, ?_⟩
  · simp [should_log, ge_iff_le]
  · intro hfalse
    rw [RotatingWriter.write, if_pos hfalse]

/-- C4 witness: with the threshold at the Warning rank, a Debug write is
    filtered out and acts as a complete no-op. -/
theorem c4_level_filter_witness :
    should_log 3 LogLevel.Debug = false ∧
    RotatingWriter.write wC1 cleanOracle ctx0 3 LogLevel.Debug "m" fsC1
      = ⟨wC1, fsC1, []⟩ :=
  ⟨by decide,
   (c4_level_filter 3 LogLevel.Debug wC1 cleanOracle ctx0 "m" fsC1).2.2
     (by decide)⟩

/-- C5: construction with max_size below 256 fails with ConfigError
    before touching the filesystem, and 256 is the exact boundary: at or
    above it, construction never yields ConfigError. -/
theorem c5_min_size (o : IOOracle) (dir basename : String)
    (max_size max_files : Nat) (app_info : String) (has_sys : Bool)
    (fs : FS) :
    (max_size < 256 →
      RotatingWriter.new o dir basename max_size max_files app_info has_sys
        fs = (.error .configError, fs)) ∧
    (256 ≤ max_size →
      (RotatingWriter.new o dir basename max_size max_files app_info has_sys
        fs).1 ≠ .error .configError) := by
  constructor
  · intro hlt
    have hlt' : max_size < MIN_SIZE := hlt
    rw [RotatingWriter.new, if_pos hlt']
  · intro hge
    have hge' : ¬(max_size < MIN_SIZE) := Nat.not_lt.mpr hge
    rw [RotatingWriter.new, if_neg hge']
    split
    · simp
    · split
      · simp
      · simp

/-- C5 witness: `max_size = 100` fails with ConfigError leaving the
    filesystem untouched; `max_size = 256` does not raise ConfigError. -/
theorem c5_min_size_witness :
    RotatingWriter.new cleanOracle "logs" "app.log" 100 3 "demo" false fsC1
      = (.error .configError, fsC1) ∧
    (RotatingWriter.new cleanOracle "logs" "app.log" 256 3 "demo" false
      fsC1).1 ≠ .error .configError :=
  ⟨(c5_min_size cleanOracle "logs" "app.log" 100 3 "demo" false fsC1).1
     (by decide),
   (c5_min_size cleanOracle "logs" "app.log" 256 3 "demo" false fsC1).2
     (by decide)⟩

/-- C7: an accepted non-rotating write appends exactly one line, which is
    the newline-terminated rendering `[timestamp] LEVEL PID:<pid>
    TID:<tid> <message>` with zero-padded timestamp fields, LEVEL drawn
    from the six level names, and the pid in decimal. -/
theorem c7_line_format (w : RotatingWriter) (o : IOOracle) (ctx : LineCtx)
    (threshold : Nat) (level : LogLevel) (message : String) (fs : FS)
    (h : Nat)
    (hlog : should_log threshold level = true)
    (hh : w.handle = some h)
    (hsz : (fs.content h).length < w.max_size) :
    (w.write o ctx threshold level message fs).fs.content h
      = fs.content h ++ (format_log_line ctx level message ++ "\n") ∧
    format_log_line ctx level message
      = "[" ++ padNum 4 ctx.year ++ "-" ++ padNum 2 ctx.month ++ "-"
        ++ padNum 2 ctx.day ++ " " ++ padNum 2 ctx.hour ++ ":"
        ++ padNum 2 ctx.minute ++ ":" ++ padNum 2 ctx.second ++ "."
        ++ padNum 3 ctx.millis ++ "] " ++ level.as_str ++ " PID:"
        ++ Nat.repr ctx.pid ++ " TID:" ++ ctx.tid ++ " " ++ message ∧
    level.as_str ∈ ["TRACE", "DEBUG", "INFO", "WARNING", "ERROR", "FATAL"]
    := by
  refine ⟨?_, ?_, ?_⟩
  · have hcond : ¬(should_log threshold level = false) := by
      rw [hlog]; exact fun hc => Bool.false_ne_true hc.symm
    have hnr : ¬(w.max_size ≤ (fs.content h).length) := Nat.not_le.mpr hsz
    simp only [RotatingWriter.write, if_neg hcond, hh, decide_eq_false hnr,
      Bool.false_eq_true, if_false]
    rw [content_appendTo_self]
  · simp only [format_log_line, fmtTimestamp, String.append_assoc]
  · cases level <;> simp [LogLevel.as_str]

/-- C7 witness: one Info line appended to the fresh file. -/
theorem c7_line_format_witness :
    (RotatingWriter.write wC1 cleanOracle ctx0 1 LogLevel.Info "hello"
        fsFresh).fs.content 0
      = FS.content fsFresh 0
        ++ (format_log_line ctx0 LogLevel.Info "hello" ++ "\n") ∧
    LogLevel.as_str LogLevel.Info
      ∈ ["TRACE", "DEBUG", "INFO", "WARNING", "ERROR", "FATAL"] := by
  have hc := c7_line_format wC1 cleanOracle ctx0 1 LogLevel.Info "hello"
    fsFresh 0 (by decide) rfl (by decide)
  exact ⟨hc.1, hc.2.2⟩

/-- C8: `Logger::log` is a no-op when no rotating writer is configured;
    otherwise it is exactly `write_to_file` at Debug severity; and in
    every case it forwards nothing to the system-log bridge, even when a
    bridge is configured. -/
theorem c8_log_debug_only (lg : Logger) (o : IOOracle) (ctx : LineCtx)
    (threshold : Nat) (message : String) (fs : FS) :
    (lg.rotating_writer = none →
      lg.log o ctx threshold message fs = ⟨lg, fs, [], []⟩) ∧
    (lg.log o ctx threshold message fs).bridged = [] ∧
    (∀ w, lg.rotating_writer = some w →
      lg.log o ctx threshold message fs
        = lg.write_to_file o ctx threshold LogLevel.Debug message fs) := by
  refine ⟨?_, ?_, ?_⟩
  · intro hn
    rw [Logger.log, if_pos (by rw [hn]; rfl)]
  · rw [Logger.log]
    split
    · rfl
    · rw [Logger.write_to_file]
      cases lg.rotating_writer <;> rfl
  · intro w hw
    rw [Logger.log, if_neg (by rw [hw]; simp)]

/-- C8 witness: with a bridge configured the log call still forwards
    nothing to it, and without a writer it is a no-op. -/
theorem c8_log_debug_only_witness :
    Logger.log lgNone cleanOracle ctx0 1 "m" fsC1 = ⟨lgNone, fsC1, [], []⟩ ∧
    (Logger.log lgBoth cleanOracle ctx0 1 "m" fsC1).bridged = [] ∧
    Logger.log lgBoth cleanOracle ctx0 1 "m" fsC1
      = Logger.write_to_file lgBoth cleanOracle ctx0 1 LogLevel.Debug "m"
          fsC1 :=
  ⟨(c8_log_debug_only lgNone cleanOracle ctx0 1 "m" fsC1).1 rfl,
   (c8_log_debug_only lgBoth cleanOracle ctx0 1 "m" fsC1).2.1,
   (c8_log_debug_only lgBoth cleanOracle ctx0 1 "m" fsC1).2.2 wSys rfl⟩

/-- C2: the source rotation cascade coincides with the spec's cascade —
    delete B.N if present, then for i from N-1 down to 1 shift B.i to
    B.(i+1) (deleting the target first), then rename B to B.1 — and a
    failed rename stops the loop immediately: the remaining shift steps
    are abandoned unexecuted. -/
theorem c2_cascade_spec (w : RotatingWriter) (o : IOOracle) :
    (∀ fs : FS, w.rotate o fs = rotateSpec w o fs) ∧
    (∀ (l1 l2 : List Nat) (fs : FS), (shiftMany w o l1 fs).2 = false →
      shiftMany w o (l1 ++ l2) fs = shiftMany w o l1 fs) :=
  ⟨fun fs => rotate_eq_rotateSpec w o fs,
   fun l1 l2 fs hfail => shiftMany_append_abandon w o l1 l2 fs hfail⟩

/-- C2 witness: with every rename failing, the cascade matches the spec
    cascade and the shift of index 2 is abandoned after index 1 fails. -/
theorem c2_cascade_spec_witness :
    RotatingWriter.rotate w6 renameFailOracle fs6
      = rotateSpec w6 renameFailOracle fs6 ∧
    shiftMany w6 renameFailOracle [1, 2] fs6
      = shiftMany w6 renameFailOracle [1] fs6 :=
  ⟨(c2_cascade_spec w6 renameFailOracle).1 fs6,
   (c2_cascade_spec w6 renameFailOracle).2 [1] [2] fs6 (by decide)⟩

/-- C6 counterexample: the delete of the oldest archive `B.N` is
    attempted (the file exists) and fails, every rename succeeds, and
    `rotate` still reports success — so a failed delete does not produce
    a RotationError. -/
theorem c6_delete_failure_counterexample :
    FS.pathExists fs6 (archivePath w6 2) = true ∧
    removeFailOracle.removeFails (archivePath w6 2) = true ∧
    (RotatingWriter.rotate w6 removeFailOracle fs6).2 = true :=
  ⟨by decide, rfl, by decide⟩

/-- C6 amended: `rotate` reports failure to its caller only for a failed
    rename — if no rename fails, it succeeds regardless of delete
    failures — and a reported rotation failure is propagated by `write`
    as an Error-severity report to the system-log bridge when a bridge
    is configured. -/
theorem c6_rotation_error_reporting (w : RotatingWriter) (o : IOOracle)
    (ctx : LineCtx) (threshold : Nat) (level : LogLevel) (message : String)
    (fs : FS) (h : Nat) :
    ((∀ s d, o.renameFails s d = false) →
      (∀ i ∈ List.range (w.max_files + 2),
        archivePath w i ≠ archivePath w (i + 1)) →
      basePath w ≠ archivePath w 1 →
      (w.rotate o fs).2 = true) ∧
    (should_log threshold level = true → w.handle = some h →
      w.max_size ≤ (fs.content h).length →
      (w.rotate o fs).2 = false → w.has_system_logger = true →
      (LogLevel.Error, "Failed to rotate log: rename error")
        ∈ (w.write o ctx threshold level message fs).sysReports) := by
  constructor
  · intro hno hdist hb1
    exact rotate_norename_ok w o fs hno hdist hb1
  · intro hlog hh hsz hrot hsys
    have hcond : ¬(should_log threshold level = false) := by
      rw [hlog]; exact fun hc => Bool.false_ne_true hc.symm
    simp only [RotatingWriter.write, if_neg hcond, hh, decide_eq_true hsz,
      if_true, hrot, Bool.false_eq_true, if_false, log_to_system, hsys]
    split
    · simp
    · split
      · simp
      · simp

/-- C6 witness: with all deletes failing the rotation still succeeds;
    with a failing rename, the bridge-wired writer `w6` emits the
    Error-severity rotation-failure report. -/
theorem c6_rotation_error_reporting_witness :
    (RotatingWriter.rotate w6 removeFailOracle fs6).2 = true ∧
    (LogLevel.Error, "Failed to rotate log: rename error")
      ∈ (RotatingWriter.write w6 renameFailOracle ctx0 1 LogLevel.Info "m"
          fs6).sysReports :=
  ⟨(c6_rotation_error_reporting w6 removeFailOracle ctx0 1 LogLevel.Info "m"
      fs6 7).1 (fun s d => rfl) (by decide) (by decide),
   (c6_rotation_error_reporting w6 renameFailOracle ctx0 1 LogLevel.Info "m"
      fs6 7).2 (by decide) rfl (by decide) (by decide) rfl⟩

/-- C9: the rotation marker bypasses the level filter — even with the
    threshold strictly above the Debug rank (so that Debug messages are
    filtered out), a rotation-triggering accepted write still puts the
    Debug-severity marker line at the head of the fresh file. -/
theorem c9_marker_bypasses_filter (w : RotatingWriter) (ctx : LineCtx)
    (threshold : Nat) (level : LogLevel) (message : String) (fs : FS)
    (h : Nat)
    (hthr : 1 < threshold)
    (hlog : should_log threshold level = true)
    (hh : w.handle = some h)
    (hbase : lookupName fs.names (basePath w) = some h)
    (hsize : w.max_size ≤ (fs.content h).length)
    (hlt : h < fs.next)
    (hbe : ∀ i ∈ List.range (w.max_files + 2), basePath w ≠ archivePath w i)
    (hane : ∀ i ∈ List.range (w.max_files + 2),
      archivePath w i ≠ archivePath w (i + 1)) :
    should_log threshold LogLevel.Debug = false ∧
    (w.write cleanOracle ctx threshold level message fs).fs.content fs.next
      = format_log_line ctx LogLevel.Debug
          ("[ROTATION] Logger restarted — " ++ w.app_info) ++ "\n"
        ++ format_log_line ctx level message ++ "\n" := by
  constructor
  · simp only [should_log, LogLevel.rank, decide_eq_false_iff_not]
    omega
  · exact (write_rotation_outcome w ctx threshold level message fs h hlog hh
      hbase hsize hlt hbe hane).2.2.2.2.1

/-- C9 witness: threshold at the Warning rank, a Warning write rotates
    and the filtered-out Debug marker still appears. -/
theorem c9_marker_bypasses_filter_witness :
    should_log 3 LogLevel.Debug = false ∧
    (RotatingWriter.write wC1 cleanOracle ctx0 3 LogLevel.Warning "warn"
        fsC1).fs.content 1
      = format_log_line ctx0 LogLevel.Debug
          ("[ROTATION] Logger restarted — " ++ wC1.app_info) ++ "\n"
        ++ format_log_line ctx0 LogLevel.Warning "warn" ++ "\n" :=
  c9_marker_bypasses_filter wC1 ctx0 3 LogLevel.Warning "warn" fsC1 0
    (by decide) (by decide) rfl rfl (by decide) (by decide) (by decide)
    (by decide)

/-- C10: when reopening the base file after a rotation fails, `write`
    returns without appending the triggering message anywhere (no file
    content changes at all), and the stored handle is left exactly as it
    was, so subsequent writes keep using it. -/
theorem c10_reopen_failure (w : RotatingWriter) (o : IOOracle)
    (ctx : LineCtx) (threshold : Nat) (level : LogLevel) (message : String)
    (fs : FS) (h : Nat)
    (hlog : should_log threshold level = true)
    (hh : w.handle = some h)
    (hsz : w.max_size ≤ (fs.content h).length)
    (hopen : o.openFails (basePath w) = true) :
    (w.write o ctx threshold level message fs).writer = w ∧
    (w.write o ctx threshold level message fs).writer.handle = some h ∧
    (w.write o ctx threshold level message fs).fs.data = fs.data := by
  have hcond : ¬(should_log threshold level = false) := by
    rw [hlog]; exact fun hc => Bool.false_ne_true hc.symm
  simp only [RotatingWriter.write, if_neg hcond, hh, decide_eq_true hsz,
    if_true, reopen_with_header, reopen, FS.openAppend, hopen, if_true]
  exact ⟨trivial, trivial, rotate_data w o fs⟩

/-- C10 witness: the open-fails oracle on the concrete full file. -/
theorem c10_reopen_failure_witness :
    (RotatingWriter.write wC1 openFailOracle ctx0 1 LogLevel.Info "lost"
      fsC1).writer = wC1 ∧
    (RotatingWriter.write wC1 openFailOracle ctx0 1 LogLevel.Info "lost"
      fsC1).fs.data = fsC1.data :=
  ⟨(c10_reopen_failure wC1 openFailOracle ctx0 1 LogLevel.Info "lost" fsC1 0
      (by decide) rfl (by decide) rfl).1,
   (c10_reopen_failure wC1 openFailOracle ctx0 1 LogLevel.Info "lost" fsC1 0
      (by decide) rfl (by decide) rfl).2.2⟩

/-- C3 counterexample: `c3interleaved` is a legal schedule of two
    complete `write` calls (every step enabled, lock discipline
    respected) in which both threads pass the size check before either
    runs the cascade.  Its outcome differs from both serial orders: the
    prior content ends at basename.2, basename.1 is gone, and the fresh
    file carries two rotation markers — so the single lock does not
    totally order size-checks, rotations and appends, and the first
    rotation is not visible to the second call's already-taken decision. -/
theorem c3_lock_order_counterexample :
    (runTrace cleanOracle ctx0 1 c3interleaved c3init).isSome = true ∧
    Option.map CConfig.fs (runTrace cleanOracle ctx0 1 c3interleaved c3init)
      ≠ Option.map CConfig.fs (runTrace cleanOracle ctx0 1 c3serialAB c3init)
      ∧
    Option.map CConfig.fs (runTrace cleanOracle ctx0 1 c3interleaved c3init)
      ≠ Option.map CConfig.fs (runTrace cleanOracle ctx0 1 c3serialBA c3init)
      ∧
    Option.map (fun c => lookupName c.fs.names (archivePath wC1 2))
        (runTrace cleanOracle ctx0 1 c3interleaved c3init) = some (some 0) ∧
    Option.map (fun c => lookupName c.fs.names (archivePath wC1 1))
        (runTrace cleanOracle ctx0 1 c3interleaved c3init) = some none := by
  refine ⟨by decide, by decide, by decide, by decide, by decide⟩

/-- C3 amended theorem: the lock does cover the file handle, the size
    check and the appends — the `locked1` and `locked2` steps are enabled
    only for the thread holding the lock — but the rotation cascade runs
    with the lock released: the `rotating` step is always enabled, in
    particular while the other thread holds the lock. -/
theorem c3_lock_coverage (o : IOOracle) (ctx : LineCtx) (threshold : Nat)
    (c : CConfig) (t : Bool) :
    ((getTh c t).pc = CPC.rotating → threadStep o ctx threshold c t ≠ none) ∧
    ((getTh c t).pc = CPC.locked1 → c.lockOwner ≠ some t →
      threadStep o ctx threshold c t = none) ∧
    ((getTh c t).pc = CPC.locked2 → c.lockOwner ≠ some t →
      threadStep o ctx threshold c t = none) := by
  refine ⟨?_, ?_, ?_⟩
  · intro hpc
    simp [threadStep, hpc]
  · intro hpc hlk
    simp [threadStep, hpc, if_neg hlk]
  · intro hpc hlk
    simp [threadStep, hpc, if_neg hlk]

/-- C3 amended witness: with thread B holding the lock, thread A's
    rotation step is enabled while its locked steps are not. -/
theorem c3_lock_coverage_witness :
    threadStep cleanOracle ctx0 1
      { w := wC1, lockOwner := some true, fs := fsC1,
        thA := { pc := CPC.rotating, level := LogLevel.Info, message := "a" },
        thB := { pc := CPC.locked1, level := LogLevel.Info, message := "b" } }
      false ≠ none ∧
    threadStep cleanOracle ctx0 1
      { w := wC1, lockOwner := some true, fs := fsC1,
        thA := { pc := CPC.locked1, level := LogLevel.Info, message := "a" },
        thB := { pc := CPC.locked1, level := LogLevel.Info, message := "b" } }
      false = none :=
  ⟨(c3_lock_coverage cleanOracle ctx0 1
      { w := wC1, lockOwner := some true, fs := fsC1,
        thA := { pc := CPC.rotating, level := LogLevel.Info, message := "a" },
        thB := { pc := CPC.locked1, level := LogLevel.Info, message := "b" } }
      false).1 rfl,
   (c3_lock_coverage cleanOracle ctx0 1
      { w := wC1, lockOwner := some true, fs := fsC1,
        thA := { pc := CPC.locked1, level := LogLevel.Info, message := "a" },
        thB := { pc := CPC.locked1, level := LogLevel.Info, message := "b" } }
      false).2.1 rfl (by decide)⟩
